import Mathlib

/-!
Shallow embedding of the progress/completion bookkeeping core of
`src/main/database/database.ts` (class `DatabaseManager`) over the SQLite
schema in `schema.sql`.

Modelling conventions:
* Timestamps (`new Date().toISOString()`, `CURRENT_TIMESTAMP`, `Date.now()`)
  are abstracted as natural numbers; each operation takes the current clock
  value `now` as an explicit argument.
* A table is a list of rows.  `this.get` (first matching row) is
  `List.find?`, a filtering `this.query` is `List.filter`, `COUNT(*)` is
  `List.countP`, `UPDATE ... WHERE` applies the assignment to every row
  matching the WHERE clause (`updateWhere`), and `INSERT` appends a row after
  the UNIQUE checks the schema imposes (where a claim depends on them).
* TS `number` fields that can be negative or are summed are `Int`; ids,
  counts and percentages are `Nat`.  `quizScore?: number` is `Option Int`
  (`none` = `undefined` / SQL NULL).
* Columns never read nor written by the modelled operations
  (`total_time_spent`, `quiz_attempts`, `created_at`, users' timestamps) are
  omitted from the row structures.
-/

namespace OurAfrica

/-- Character-list prefix test, used to model SQL `LIKE 'pat%'`.  The ids in
this schema are lowercase ASCII by convention (`lesson-1`, `quiz-1`, ...), so
SQLite's ASCII-case-insensitive LIKE agrees with an exact prefix match. -/
def charsStart : List Char → List Char → Bool
  | [], _ => true
  | _ :: _, [] => false
  | c :: cs, d :: ds => c == d && charsStart cs ds

/-- `likeStarts pat s` models the SQL predicate `s LIKE 'pat%'`. -/
def likeStarts (pat s : String) : Bool :=
  charsStart pat.toList s.toList

/-- Apply `g` to every row matching `p`: models `UPDATE ... SET ... WHERE p`. -/
def updateWhere (p : α → Bool) (g : α → α) : List α → List α
  | [] => []
  | r :: rs => (if p r then g r else r) :: updateWhere p g rs

/-- A lesson of a module's content document (`Lesson` in the renderer types).
Content blocks, ordering and duration are never read by the database layer,
which only uses `content.lessons.length`; they are omitted. -/
structure Lesson where
  id : String
  title : String
  deriving DecidableEq

/-- A quiz of a module's content document (`Quiz` in the renderer types).
The question list is never read by the database layer and is omitted. -/
structure Quiz where
  id : String
  title : String
  afterLessonId : Option String
  passingScore : Int
  deriving DecidableEq

/-- `ModuleContent`: the JSON content document stored in `modules.content`. -/
structure ModuleContent where
  lessons : List Lesson
  quizzes : List Quiz
  estimatedTime : Nat
  deriving DecidableEq

/-- A row of the `modules` table (content already parsed, as
`getModuleById`/`updateModuleCompletionStatus` parse it before use). -/
structure ModuleRow where
  id : Nat
  title : String
  content : ModuleContent
  deriving DecidableEq

/-- A row of the `users` table (only the columns the modelled operations
read: `id` for lookup, `username` for the certificate snapshot). -/
structure UserRow where
  id : Nat
  username : String
  deriving DecidableEq

/-- A row of the `user_progress` table (module-level progress). -/
structure UserProgressRow where
  user_id : Nat
  module_id : Nat
  progress_percentage : Nat
  completed : Bool
  started_at : Option Nat
  completion_date : Option Nat
  last_accessed : Nat
  deriving DecidableEq

/-- A row of the `lesson_progress` table. -/
structure LessonProgressRow where
  user_id : Nat
  module_id : Nat
  lesson_id : String
  completed : Bool
  time_spent : Int
  quiz_score : Option Int
  completed_at : Option Nat
  updated_at : Nat
  deriving DecidableEq

/-- The JSON snapshot stored in `certificates.certificate_data`. -/
structure CertData where
  userName : String
  moduleTitle : String
  completionDate : Nat
  timeSpent : Int
  deriving DecidableEq

/-- A row of the `certificates` table. -/
structure CertificateRow where
  user_id : Nat
  module_id : Nat
  certificate_code : String
  certificate_data : CertData
  deriving DecidableEq

/-- The five-table store of `schema.sql`. -/
structure DBState where
  users : List UserRow
  modules : List ModuleRow
  user_progress : List UserProgressRow
  lesson_progress : List LessonProgressRow
  certificates : List CertificateRow
  deriving DecidableEq

/-- WHERE clause `user_id = u AND module_id = m` on `user_progress`. -/
def upKey (u m : Nat) (r : UserProgressRow) : Bool :=
  r.user_id == u && r.module_id == m

/-- WHERE clause `user_id = u AND module_id = m` on `lesson_progress`. -/
def lpPairKey (u m : Nat) (r : LessonProgressRow) : Bool :=
  r.user_id == u && r.module_id == m

/-- WHERE clause `user_id = u AND module_id = m AND lesson_id = lid`. -/
def lpKey (u m : Nat) (lid : String) (r : LessonProgressRow) : Bool :=
  lpPairKey u m r && r.lesson_id == lid

/-- `SELECT * FROM user_progress WHERE user_id = ? AND module_id = ?` via
`this.get` (first row). -/
def findUserProgress (s : DBState) (u m : Nat) : Option UserProgressRow :=
  s.user_progress.find? (upKey u m)

/-- `SELECT * FROM lesson_progress WHERE user_id = ? AND module_id = ? AND
lesson_id = ?` via `this.get` (first row). -/
def findLessonProgress (s : DBState) (u m : Nat) (lid : String) :
    Option LessonProgressRow :=
  s.lesson_progress.find? (lpKey u m lid)

/-- `SELECT * FROM modules WHERE id = ?` via `this.get`. -/
def findModule (s : DBState) (m : Nat) : Option ModuleRow :=
  s.modules.find? (fun r => r.id == m)

/-- `SELECT * FROM users WHERE id = ?` via `this.get`. -/
def findUser (s : DBState) (u : Nat) : Option UserRow :=
  s.users.find? (fun r => r.id == u)

/-- `SELECT * FROM lesson_progress WHERE user_id = ? AND module_id = ?`. -/
def lessonProgressFor (s : DBState) (u m : Nat) : List LessonProgressRow :=
  s.lesson_progress.filter (lpPairKey u m)

/-- `SELECT COUNT(*) ... WHERE ... completed = 1 AND lesson_id LIKE
"lesson-%"` (database.ts:508-511). -/
def completedLessonCount (s : DBState) (u m : Nat) : Nat :=
  s.lesson_progress.countP
    (fun r => lpPairKey u m r && r.completed && likeStarts "lesson-" r.lesson_id)

/-- `SELECT COUNT(*) ... WHERE ... completed = 1 AND lesson_id LIKE "quiz-%"
AND quiz_score IS NOT NULL` (database.ts:514-517). -/
def completedQuizCount (s : DBState) (u m : Nat) : Nat :=
  s.lesson_progress.countP
    (fun r => lpPairKey u m r && r.completed && likeStarts "quiz-" r.lesson_id
        && r.quiz_score.isSome)

/-- `Math.round((totalCompleted / totalItems) * 100)` on the exact rational.
JS `Math.round` rounds half toward positive infinity, i.e.
`⌊x + 1/2⌋ = ⌊(200c + t) / (2t)⌋` for `x = 100·c/t ≥ 0`. -/
def jsRound100 (c t : Nat) : Nat :=
  (200 * c + t) / (2 * t)

/-- SET clause of the `last_accessed` refresh (database.ts:393-396). -/
def touchRow (now : Nat) (r : UserProgressRow) : UserProgressRow :=
  { r with last_accessed := now }

/-- SET clause of the aggregate UPDATE (database.ts:540-543). -/
def aggRow (pct : Nat) (cFlag : Bool) (cDate : Option Nat) (r : UserProgressRow) :
    UserProgressRow :=
  { r with
      progress_percentage := pct
      completed := cFlag
      completion_date := cDate }

/-- `updateModuleCompletionStatus` (database.ts:492-548): recompute the
module-level aggregate for a (user, module) pair and persist it onto the
existing `user_progress` row.  The surrounding try/catch swallows store
errors; the error case is modelled at the caller (`updateLessonProgress`'s
`aggFails` flag), since the only write here is the final UPDATE. -/
def updateModuleCompletionStatus (s : DBState) (now u m : Nat) : DBState :=
  match findModule s m with
  | none => s
  | some md =>
    let totalLessons := md.content.lessons.length
    let totalQuizzes := md.content.quizzes.length
    let totalItems := totalLessons + totalQuizzes
    if totalItems = 0 then s
    else
      let completedLessons := completedLessonCount s u m
      let completedQuizzes := completedQuizCount s u m
      let totalCompleted := completedLessons + completedQuizzes
      let progressPercentage := jsRound100 totalCompleted totalItems
      let isCompleted : Bool :=
        decide (totalLessons ≤ completedLessons)
          && decide (totalQuizzes ≤ completedQuizzes)
      match findUserProgress s u m with
      | none => s
      | some cur =>
        let completionDate :=
          if isCompleted && !cur.completed then some now else cur.completion_date
        { s with
            user_progress :=
              updateWhere (upKey u m)
                (aggRow progressPercentage isCompleted completionDate)
                s.user_progress }

/-- Argument record of one `updateLessonProgress` call (database.ts:365-372),
together with the clock value at which it runs. -/
structure UpdateCall where
  now : Nat
  userId : Nat
  moduleId : Nat
  lessonId : String
  completed : Bool
  timeSpent : Int
  quizScore : Option Int
  deriving DecidableEq

/-- Step 1 of `updateLessonProgress` (database.ts:374-397): create the
`user_progress` row with `started_at = last_accessed = now` on first contact
(`progress_percentage`/`completed`/`completion_date` take the schema defaults
0/FALSE/NULL), else only refresh `last_accessed`. -/
def touchUserProgress (s : DBState) (now u m : Nat) : DBState :=
  match findUserProgress s u m with
  | none =>
      { s with
          user_progress :=
            s.user_progress ++ [⟨u, m, 0, false, some now, none, now⟩] }
  | some _ =>
      { s with
          user_progress :=
            updateWhere (upKey u m) (touchRow now) s.user_progress }

/-- SET clause of the lesson-progress UPDATE (database.ts:408-419): the bound
parameters are computed from the previously fetched row `ex`
(`newTimeSpent = ex.time_spent + delta`, `quiz_score` falls back to
`ex.quiz_score`, `completed_at` to `ex.completed_at`). -/
def upsertRow (c : UpdateCall) (ex : LessonProgressRow) (r : LessonProgressRow) :
    LessonProgressRow :=
  { r with
      completed := c.completed
      time_spent := ex.time_spent + c.timeSpent
      quiz_score :=
        match c.quizScore with
        | some q => some q
        | none => ex.quiz_score
      completed_at := if c.completed then some c.now else ex.completed_at
      updated_at := c.now }

/-- Steps 2-3 of `updateLessonProgress` (database.ts:399-434): upsert the
`lesson_progress` row, accumulating `time_spent`, replacing `completed`,
keeping `quiz_score` when none is supplied, and setting `completed_at = now`
whenever the supplied flag is true (else keeping the prior value). -/
def upsertLessonProgress (s : DBState) (c : UpdateCall) : DBState :=
  match findLessonProgress s c.userId c.moduleId c.lessonId with
  | some existing =>
      { s with
          lesson_progress :=
            updateWhere (lpKey c.userId c.moduleId c.lessonId)
              (upsertRow c existing) s.lesson_progress }
  | none =>
      { s with
          lesson_progress :=
            s.lesson_progress ++
              [⟨c.userId, c.moduleId, c.lessonId, c.completed, c.timeSpent,
                c.quizScore, if c.completed then some c.now else none, c.now⟩] }

/-- `updateLessonProgress` (database.ts:365-453).  `aggFails = true` models a
store error anywhere inside `updateModuleCompletionStatus`: its try/catch
(database.ts:545-548) logs and returns normally, and since its only write is
the final UPDATE, any failure leaves the state unchanged.  The returned
`Option` is the `ApiResponse` envelope (`some` = success with the re-selected
row). -/
def updateLessonProgress (s : DBState) (c : UpdateCall) (aggFails : Bool) :
    DBState × Option LessonProgressRow :=
  let s1 := touchUserProgress s c.now c.userId c.moduleId
  let s2 := upsertLessonProgress s1 c
  let s3 :=
    if aggFails then s2
    else updateModuleCompletionStatus s2 c.now c.userId c.moduleId
  (s3, findLessonProgress s3 c.userId c.moduleId c.lessonId)

/-- The state after one failure-free `updateLessonProgress` call. -/
def applyCall (s : DBState) (c : UpdateCall) : DBState :=
  (updateLessonProgress s c false).1

/-- The state after a sequence of failure-free `updateLessonProgress` calls. -/
def runCalls (s : DBState) (cs : List UpdateCall) : DBState :=
  cs.foldl applyCall s

/-- `getModuleProgress` (database.ts:455-473). -/
def getModuleProgress (s : DBState) (u m : Nat) :
    Option UserProgressRow × List LessonProgressRow :=
  (findUserProgress s u m, lessonProgressFor s u m)

/-- `resetModuleProgress` (database.ts:475-490): delete the `user_progress`
row and all `lesson_progress` rows for the pair; the returned count is
`result.changes` of the lesson-progress DELETE. -/
def resetModuleProgress (s : DBState) (u m : Nat) : DBState × Nat :=
  let removed := (s.lesson_progress.filter (lpPairKey u m)).length
  ({ s with
      user_progress := s.user_progress.filter (fun r => !upKey u m r)
      lesson_progress := s.lesson_progress.filter (fun r => !lpPairKey u m r) },
    removed)

/-- `SELECT * FROM lesson_progress WHERE user_id = ? AND module_id = ? AND
completed = 1` (database.ts:553-556): all completed rows, lessons and quizzes
alike. -/
def completedRowsFor (s : DBState) (u m : Nat) : List LessonProgressRow :=
  s.lesson_progress.filter (fun r => lpPairKey u m r && r.completed)

/-- The certificate code `CERT-${Date.now()}-${userId}-${moduleId}`. -/
def certCode (now u m : Nat) : String :=
  "CERT-" ++ toString now ++ "-" ++ toString u ++ "-" ++ toString m

/-- `generateCertificate` (database.ts:550-604).  The eligibility guard
`lessonProgress.length < lessons.length * 0.8` is modelled as
`5 * count < 4 * total`: for an integer count, comparison against the
binary64 value of `total * 0.8` coincides with comparison against the exact
rational `4 * total / 5` (the product rounds to the exact integer whenever
`total` is divisible by 5, and the float error is far below the 0.2 gap to
the nearest integer otherwise).  The INSERT enforces the schema's UNIQUE
constraints on `certificate_code` and `(user_id, module_id)`; a violation
throws and is caught (database.ts:601-603), leaving the state unchanged. -/
def generateCertificate (s : DBState) (now u m : Nat) :
    DBState × Except String CertificateRow :=
  let lessonProgress := completedRowsFor s u m
  match findModule s m, findUser s u with
  | some md, some user =>
    let lessons := md.content.lessons
    if 5 * lessonProgress.length < 4 * lessons.length then
      (s, .error "Module not sufficiently completed")
    else
      let code := certCode now u m
      let certData : CertData :=
        ⟨user.username, md.title, now, (lessonProgress.map (·.time_spent)).sum⟩
      if s.certificates.any
          (fun cr =>
            cr.certificate_code == code || (cr.user_id == u && cr.module_id == m)) then
        (s, .error "Failed to generate certificate: UNIQUE constraint failed")
      else
        let row : CertificateRow := ⟨u, m, code, certData⟩
        ({ s with certificates := s.certificates ++ [row] }, .ok row)
  | _, _ => (s, .error "Module or user not found")

/-- `verifyCertificate` (database.ts:619-630). -/
def verifyCertificate (s : DBState) (code : String) : Option CertificateRow :=
  s.certificates.find? (fun cr => cr.certificate_code == code)

/-- Success bit of the `ApiResponse` envelope of `generateCertificate`. -/
def resultOk : Except String CertificateRow → Bool
  | .ok _ => true
  | .error _ => false

/-- The stored `time_spent` for a (user, module, id) key, 0 when no row. -/
def tsOf (s : DBState) (u m : Nat) (lid : String) : Int :=
  ((findLessonProgress s u m lid).map (·.time_spent)).getD 0

/-- The stored `completed_at` for a (user, module, id) key. -/
def completedAtOf (s : DBState) (u m : Nat) (lid : String) : Option Nat :=
  (findLessonProgress s u m lid).bind (·.completed_at)

/-- The stored module-level `completed` flag (false when no row). -/
def moduleCompleted (s : DBState) (u m : Nat) : Bool :=
  ((findUserProgress s u m).map (·.completed)).getD false

/-- The stored module-level `completion_date`. -/
def completionDateOf (s : DBState) (u m : Nat) : Option Nat :=
  (findUserProgress s u m).bind (·.completion_date)

/-- The stored module-level `started_at`. -/
def startedAtOf (s : DBState) (u m : Nat) : Option Nat :=
  (findUserProgress s u m).bind (·.started_at)

/-- The stored module-level `progress_percentage`. -/
def progressPercentageOf (s : DBState) (u m : Nat) : Option Nat :=
  (findUserProgress s u m).map (·.progress_percentage)

/-- The aggregate fields (`progress_percentage`, `completed`,
`completion_date`) written by `updateModuleCompletionStatus`. -/
def aggOf (s : DBState) (u m : Nat) : Option (Nat × Bool × Option Nat) :=
  (findUserProgress s u m).map
    (fun r => (r.progress_percentage, r.completed, r.completion_date))

/-- Decidable form of the consistency invariant relating the cached module
`completed` flag to the completion counts it was computed from: whenever the
flag is set, the counts reach the content totals.  It holds in any state the
operations can reach (the flag is only ever set by the recomputation). -/
def aggConsistentB (s : DBState) (u m : Nat) : Bool :=
  !moduleCompleted s u m ||
    match findModule s m with
    | none => true
    | some md =>
        decide (md.content.lessons.length ≤ completedLessonCount s u m)
          && decide (md.content.quizzes.length ≤ completedQuizCount s u m)

/-! Generic lemmas about the list primitives standing for SQL operations. -/

theorem find?_updateWhere_same (p : α → Bool) (g : α → α) (l : List α)
    (hp : ∀ r, p (g r) = p r) :
    (updateWhere p g l).find? p = (l.find? p).map g := by
  induction l with
  | nil => rfl
  | cons r rs ih =>
    cases h : p r with
    | true =>
      rw [updateWhere, if_pos h]
      rw [List.find?_cons_of_pos _ (by rw [hp r]; exact h),
        List.find?_cons_of_pos _ h, Option.map_some']
    | false =>
      rw [updateWhere, if_neg (by simp [h])]
      rw [List.find?_cons_of_neg _ (by simp [h]),
        List.find?_cons_of_neg _ (by simp [h]), ih]

theorem find?_updateWhere_disj (p q : α → Bool) (g : α → α) (l : List α)
    (h : ∀ r, p r = true → q r = false ∧ q (g r) = false) :
    (updateWhere p g l).find? q = l.find? q := by
  induction l with
  | nil => rfl
  | cons r rs ih =>
    cases hp : p r with
    | true =>
      rw [updateWhere, if_pos hp]
      rw [List.find?_cons_of_neg _ (by simp [(h r hp).2]),
        List.find?_cons_of_neg _ (by simp [(h r hp).1]), ih]
    | false =>
      rw [updateWhere, if_neg (by simp [hp])]
      cases hq : q r with
      | true =>
        rw [List.find?_cons_of_pos _ hq, List.find?_cons_of_pos _ hq]
      | false =>
        rw [List.find?_cons_of_neg _ (by simp [hq]),
          List.find?_cons_of_neg _ (by simp [hq]), ih]

theorem countP_le_updateWhere (p q : α → Bool) (g : α → α) (l : List α)
    (h : ∀ r, p r = true → q r = true → q (g r) = true) :
    l.countP q ≤ (updateWhere p g l).countP q := by
  induction l with
  | nil => exact Nat.le_refl _
  | cons r rs ih =>
    simp only [updateWhere, List.countP_cons]
    by_cases hp : p r = true
    · by_cases hq : q r = true
      · simp [hp, hq, h r hp hq]; omega
      · simp [hp, hq]; split <;> omega
    · simp [hp]; omega

theorem updateWhere_updateWhere_self (p : α → Bool) (g g' : α → α) (l : List α)
    (hp : ∀ r, p (g r) = p r)
    (hc : ∀ r, p r = true → g' (g r) = g r) :
    updateWhere p g' (updateWhere p g l) = updateWhere p g l := by
  induction l with
  | nil => rfl
  | cons r rs ih =>
    by_cases h : p r = true
    · have h2 : p (g r) = true := by rw [hp r]; exact h
      simp [updateWhere, h, h2, hc r h, ih]
    · simp [updateWhere, h, ih]

theorem find?_append_left (p : α → Bool) (l₁ l₂ : List α) (a : α)
    (h : l₁.find? p = some a) : (l₁ ++ l₂).find? p = some a := by
  induction l₁ with
  | nil => simp [List.find?] at h
  | cons r rs ih =>
    cases hp : p r with
    | true =>
      rw [List.find?_cons_of_pos _ hp] at h
      rw [List.cons_append, List.find?_cons_of_pos _ hp]; exact h
    | false =>
      rw [List.find?_cons_of_neg _ (by simp [hp])] at h
      rw [List.cons_append, List.find?_cons_of_neg _ (by simp [hp])]
      exact ih h

theorem find?_append_right (p : α → Bool) (l₁ l₂ : List α)
    (h : l₁.find? p = none) : (l₁ ++ l₂).find? p = l₂.find? p := by
  induction l₁ with
  | nil => rfl
  | cons r rs ih =>
    cases hp : p r with
    | true => rw [List.find?_cons_of_pos _ hp] at h; exact absurd h (by simp)
    | false =>
      rw [List.find?_cons_of_neg _ (by simp [hp])] at h
      rw [List.cons_append, List.find?_cons_of_neg _ (by simp [hp])]
      exact ih h

theorem find?_filter_not_self (p : α → Bool) (l : List α) :
    (l.filter (fun r => !p r)).find? p = none := by
  induction l with
  | nil => rfl
  | cons r rs ih =>
    cases hp : p r with
    | true =>
      rw [List.filter_cons, if_neg (by simp [hp])]
      exact ih
    | false =>
      rw [List.filter_cons, if_pos (by simp [hp]),
        List.find?_cons_of_neg _ (by simp [hp])]
      exact ih

theorem find?_filter_not_other (p q : α → Bool) (l : List α)
    (h : ∀ r, q r = true → p r = false) :
    (l.filter (fun r => !p r)).find? q = l.find? q := by
  induction l with
  | nil => rfl
  | cons r rs ih =>
    cases hq : q r with
    | true =>
      rw [List.filter_cons, if_pos (by simp [h r hq]),
        List.find?_cons_of_pos _ hq, List.find?_cons_of_pos _ hq]
    | false =>
      cases hp : p r with
      | true =>
        rw [List.filter_cons, if_neg (by simp [hp]),
          List.find?_cons_of_neg _ (by simp [hq]), ih]
      | false =>
        rw [List.filter_cons, if_pos (by simp [hp]),
          List.find?_cons_of_neg _ (by simp [hq]),
          List.find?_cons_of_neg _ (by simp [hq]), ih]

theorem filter_filter_not_self (p : α → Bool) (l : List α) :
    (l.filter (fun r => !p r)).filter p = [] := by
  induction l with
  | nil => rfl
  | cons r rs ih =>
    cases hp : p r with
    | true =>
      rw [List.filter_cons, if_neg (by simp [hp])]
      exact ih
    | false =>
      rw [List.filter_cons, if_pos (by simp [hp]), List.filter_cons,
        if_neg (by simp [hp])]
      exact ih

theorem filter_filter_not_other (p q : α → Bool) (l : List α)
    (h : ∀ r, q r = true → p r = false) :
    (l.filter (fun r => !p r)).filter q = l.filter q := by
  induction l with
  | nil => rfl
  | cons r rs ih =>
    cases hq : q r with
    | true =>
      rw [List.filter_cons, if_pos (by simp [h r hq]), List.filter_cons,
        if_pos hq, List.filter_cons, if_pos hq, ih]
    | false =>
      cases hp : p r with
      | true =>
        rw [List.filter_cons, if_neg (by simp [hp]), List.filter_cons,
          if_neg (by simp [hq]), ih]
      | false =>
        rw [List.filter_cons, if_pos (by simp [hp]), List.filter_cons,
          if_neg (by simp [hq]), List.filter_cons, if_neg (by simp [hq]), ih]

theorem updateWhere_eq_map (p : α → Bool) (g : α → α) (l : List α) :
    updateWhere p g l = l.map (fun r => if p r then g r else r) := by
  induction l with
  | nil => rfl
  | cons r rs ih => rw [updateWhere, List.map_cons, ih]

theorem countP_le_updateWhere_mem (p q : α → Bool) (g : α → α) (l : List α)
    (h : ∀ r ∈ l, p r = true → q r = true → q (g r) = true) :
    l.countP q ≤ (updateWhere p g l).countP q := by
  induction l with
  | nil => exact Nat.le_refl _
  | cons r rs ih =>
    have ih' := ih (fun r hr => h r (List.mem_cons_of_mem _ hr))
    have hr := h r (List.mem_cons_self r rs)
    simp only [updateWhere, List.countP_cons]
    by_cases hp : p r = true
    · by_cases hq : q r = true
      · simp [hp, hq, hr hp hq]; omega
      · simp [hp, hq]; split <;> omega
    · simp [hp]; omega

/-! Projection (frame) facts: which tables each operation leaves alone. -/

theorem touch_lesson_progress (s : DBState) (now u m : Nat) :
    (touchUserProgress s now u m).lesson_progress = s.lesson_progress := by
  unfold touchUserProgress; split <;> rfl

theorem touch_modules (s : DBState) (now u m : Nat) :
    (touchUserProgress s now u m).modules = s.modules := by
  unfold touchUserProgress; split <;> rfl

theorem touch_users (s : DBState) (now u m : Nat) :
    (touchUserProgress s now u m).users = s.users := by
  unfold touchUserProgress; split <;> rfl

theorem touch_certificates (s : DBState) (now u m : Nat) :
    (touchUserProgress s now u m).certificates = s.certificates := by
  unfold touchUserProgress; split <;> rfl

theorem upsert_user_progress (s : DBState) (c : UpdateCall) :
    (upsertLessonProgress s c).user_progress = s.user_progress := by
  unfold upsertLessonProgress; split <;> rfl

theorem upsert_modules (s : DBState) (c : UpdateCall) :
    (upsertLessonProgress s c).modules = s.modules := by
  unfold upsertLessonProgress; split <;> rfl

theorem upsert_users (s : DBState) (c : UpdateCall) :
    (upsertLessonProgress s c).users = s.users := by
  unfold upsertLessonProgress; split <;> rfl

theorem upsert_certificates (s : DBState) (c : UpdateCall) :
    (upsertLessonProgress s c).certificates = s.certificates := by
  unfold upsertLessonProgress; split <;> rfl

theorem recompute_lesson_progress (s : DBState) (now u m : Nat) :
    (updateModuleCompletionStatus s now u m).lesson_progress = s.lesson_progress := by
  unfold updateModuleCompletionStatus
  split
  · rfl
  · split <;> (dsimp only; split <;> rfl)

theorem recompute_modules (s : DBState) (now u m : Nat) :
    (updateModuleCompletionStatus s now u m).modules = s.modules := by
  unfold updateModuleCompletionStatus
  split
  · rfl
  · split <;> (dsimp only; split <;> rfl)

theorem recompute_users (s : DBState) (now u m : Nat) :
    (updateModuleCompletionStatus s now u m).users = s.users := by
  unfold updateModuleCompletionStatus
  split
  · rfl
  · split <;> (dsimp only; split <;> rfl)

theorem recompute_certificates (s : DBState) (now u m : Nat) :
    (updateModuleCompletionStatus s now u m).certificates = s.certificates := by
  unfold updateModuleCompletionStatus
  split
  · rfl
  · split <;> (dsimp only; split <;> rfl)

theorem findModule_touch (s : DBState) (now u m mid : Nat) :
    findModule (touchUserProgress s now u m) mid = findModule s mid := by
  unfold findModule; rw [touch_modules]

theorem findModule_upsert (s : DBState) (c : UpdateCall) (mid : Nat) :
    findModule (upsertLessonProgress s c) mid = findModule s mid := by
  unfold findModule; rw [upsert_modules]

theorem findUserProgress_upsert (s : DBState) (c : UpdateCall) (u m : Nat) :
    findUserProgress (upsertLessonProgress s c) u m = findUserProgress s u m := by
  unfold findUserProgress; rw [upsert_user_progress]

theorem findLessonProgress_touch (s : DBState) (now u m u' m' : Nat) (lid : String) :
    findLessonProgress (touchUserProgress s now u m) u' m' lid =
      findLessonProgress s u' m' lid := by
  unfold findLessonProgress; rw [touch_lesson_progress]

theorem findLessonProgress_recompute (s : DBState) (now u m u' m' : Nat) (lid : String) :
    findLessonProgress (updateModuleCompletionStatus s now u m) u' m' lid =
      findLessonProgress s u' m' lid := by
  unfold findLessonProgress; rw [recompute_lesson_progress]

theorem completedLessonCount_touch (s : DBState) (now u m u' m' : Nat) :
    completedLessonCount (touchUserProgress s now u m) u' m' =
      completedLessonCount s u' m' := by
  unfold completedLessonCount; rw [touch_lesson_progress]

theorem completedQuizCount_touch (s : DBState) (now u m u' m' : Nat) :
    completedQuizCount (touchUserProgress s now u m) u' m' =
      completedQuizCount s u' m' := by
  unfold completedQuizCount; rw [touch_lesson_progress]

theorem completedLessonCount_recompute (s : DBState) (now u m u' m' : Nat) :
    completedLessonCount (updateModuleCompletionStatus s now u m) u' m' =
      completedLessonCount s u' m' := by
  unfold completedLessonCount; rw [recompute_lesson_progress]

theorem completedQuizCount_recompute (s : DBState) (now u m u' m' : Nat) :
    completedQuizCount (updateModuleCompletionStatus s now u m) u' m' =
      completedQuizCount s u' m' := by
  unfold completedQuizCount; rw [recompute_lesson_progress]

/-! Key preservation: the SET clauses never change the WHERE-clause columns. -/

theorem upKey_touchRow (u m now : Nat) :
    ∀ r, upKey u m (touchRow now r) = upKey u m r :=
  fun _ => rfl

theorem upKey_aggRow (u m : Nat) (pct : Nat) (cFlag : Bool) (cDate : Option Nat) :
    ∀ r, upKey u m (aggRow pct cFlag cDate r) = upKey u m r :=
  fun _ => rfl

theorem lpKey_upsertRow (u m : Nat) (lid : String) (c : UpdateCall)
    (ex : LessonProgressRow) :
    ∀ r, lpKey u m lid (upsertRow c ex r) = lpKey u m lid r :=
  fun _ => rfl

/-! The shape of `touchUserProgress` and of the recomputation. -/

theorem findUserProgress_touch (s : DBState) (now u m : Nat) :
    findUserProgress (touchUserProgress s now u m) u m =
      match findUserProgress s u m with
      | none => some ⟨u, m, 0, false, some now, none, now⟩
      | some cur => some { cur with last_accessed := now } := by
  unfold touchUserProgress
  cases h : findUserProgress s u m with
  | none =>
    unfold findUserProgress at h ⊢
    dsimp only
    rw [find?_append_right _ _ _ h]
    simp [upKey, List.find?]
  | some cur =>
    unfold findUserProgress at h ⊢
    dsimp only
    rw [find?_updateWhere_same (upKey u m) (touchRow now) s.user_progress
      (upKey_touchRow u m now), h]
    rfl

/-- The percentage the recomputation writes. -/
def aggPercent (s : DBState) (u m : Nat) (md : ModuleRow) : Nat :=
  jsRound100 (completedLessonCount s u m + completedQuizCount s u m)
    (md.content.lessons.length + md.content.quizzes.length)

/-- The `completed` flag the recomputation writes. -/
def aggCompleted (s : DBState) (u m : Nat) (md : ModuleRow) : Bool :=
  decide (md.content.lessons.length ≤ completedLessonCount s u m)
    && decide (md.content.quizzes.length ≤ completedQuizCount s u m)

/-- The `completion_date` the recomputation writes. -/
def aggDate (s : DBState) (u m : Nat) (md : ModuleRow) (now : Nat)
    (cur : UserProgressRow) : Option Nat :=
  if aggCompleted s u m md && !cur.completed then some now else cur.completion_date

theorem recompute_of_no_module (s : DBState) (now u m : Nat)
    (h : findModule s m = none) :
    updateModuleCompletionStatus s now u m = s := by
  unfold updateModuleCompletionStatus; rw [h]

theorem recompute_of_zero_items (s : DBState) (now u m : Nat) (md : ModuleRow)
    (h1 : findModule s m = some md)
    (h2 : md.content.lessons.length + md.content.quizzes.length = 0) :
    updateModuleCompletionStatus s now u m = s := by
  unfold updateModuleCompletionStatus
  rw [h1]
  simp [h2]

theorem recompute_of_no_row (s : DBState) (now u m : Nat) (md : ModuleRow)
    (h1 : findModule s m = some md)
    (h3 : findUserProgress s u m = none) :
    updateModuleCompletionStatus s now u m = s := by
  unfold updateModuleCompletionStatus
  rw [h1]
  by_cases h2 : md.content.lessons.length + md.content.quizzes.length = 0
  · simp [h2]
  · simp [h2, h3]

theorem recompute_eq (s : DBState) (now u m : Nat) (md : ModuleRow)
    (cur : UserProgressRow)
    (h1 : findModule s m = some md)
    (h2 : ¬md.content.lessons.length + md.content.quizzes.length = 0)
    (h3 : findUserProgress s u m = some cur) :
    updateModuleCompletionStatus s now u m =
      { s with
          user_progress :=
            updateWhere (upKey u m)
              (aggRow (aggPercent s u m md) (aggCompleted s u m md)
                (aggDate s u m md now cur))
              s.user_progress } := by
  unfold updateModuleCompletionStatus
  rw [h1]
  dsimp only
  rw [if_neg h2, h3]
  rfl

theorem findUserProgress_recompute (s : DBState) (now u m : Nat) (md : ModuleRow)
    (cur : UserProgressRow)
    (h1 : findModule s m = some md)
    (h2 : ¬md.content.lessons.length + md.content.quizzes.length = 0)
    (h3 : findUserProgress s u m = some cur) :
    findUserProgress (updateModuleCompletionStatus s now u m) u m =
      some { cur with
              progress_percentage := aggPercent s u m md
              completed := aggCompleted s u m md
              completion_date := aggDate s u m md now cur } := by
  rw [recompute_eq s now u m md cur h1 h2 h3]
  unfold findUserProgress
  dsimp only
  rw [find?_updateWhere_same (upKey u m)
    (aggRow (aggPercent s u m md) (aggCompleted s u m md)
      (aggDate s u m md now cur))
    s.user_progress
    (upKey_aggRow u m (aggPercent s u m md) (aggCompleted s u m md)
      (aggDate s u m md now cur))]
  unfold findUserProgress at h3
  rw [h3]
  rfl

/-- Case analysis on what the recomputation did to the (u, m) row. -/
theorem findUP_recompute_shape (s : DBState) (now u m : Nat) :
    findUserProgress (updateModuleCompletionStatus s now u m) u m =
        findUserProgress s u m ∨
      ∃ md cur, findModule s m = some md ∧ findUserProgress s u m = some cur ∧
        ¬md.content.lessons.length + md.content.quizzes.length = 0 ∧
        findUserProgress (updateModuleCompletionStatus s now u m) u m =
          some { cur with
                  progress_percentage := aggPercent s u m md
                  completed := aggCompleted s u m md
                  completion_date := aggDate s u m md now cur } := by
  cases h1 : findModule s m with
  | none => exact Or.inl (by rw [recompute_of_no_module s now u m h1])
  | some md =>
    by_cases h2 : md.content.lessons.length + md.content.quizzes.length = 0
    · exact Or.inl (by rw [recompute_of_zero_items s now u m md h1 h2])
    · cases h3 : findUserProgress s u m with
      | none => exact Or.inl (by rw [recompute_of_no_row s now u m md h1 h3, h3])
      | some cur =>
        exact Or.inr ⟨md, cur, rfl, rfl, h2,
          findUserProgress_recompute s now u m md cur h1 h2 h3⟩

theorem startedAt_recompute (s : DBState) (now u m : Nat) :
    startedAtOf (updateModuleCompletionStatus s now u m) u m = startedAtOf s u m := by
  rcases findUP_recompute_shape s now u m with h | ⟨md, cur, _, h3, _, h⟩
  · unfold startedAtOf; rw [h]
  · unfold startedAtOf; rw [h, h3]; rfl

/-! The shape of the lesson-progress upsert. -/

theorem findLessonProgress_upsert_some (s : DBState) (c : UpdateCall)
    (ex : LessonProgressRow)
    (h : findLessonProgress s c.userId c.moduleId c.lessonId = some ex) :
    findLessonProgress (upsertLessonProgress s c) c.userId c.moduleId c.lessonId =
      some (upsertRow c ex ex) := by
  unfold upsertLessonProgress
  rw [h]
  dsimp only
  unfold findLessonProgress at h ⊢
  dsimp only
  rw [find?_updateWhere_same (lpKey c.userId c.moduleId c.lessonId)
    (upsertRow c ex) s.lesson_progress
    (lpKey_upsertRow c.userId c.moduleId c.lessonId c ex), h]
  rfl

theorem findLessonProgress_upsert_none (s : DBState) (c : UpdateCall)
    (h : findLessonProgress s c.userId c.moduleId c.lessonId = none) :
    findLessonProgress (upsertLessonProgress s c) c.userId c.moduleId c.lessonId =
      some ⟨c.userId, c.moduleId, c.lessonId, c.completed, c.timeSpent,
            c.quizScore, if c.completed then some c.now else none, c.now⟩ := by
  unfold upsertLessonProgress
  rw [h]
  dsimp only
  unfold findLessonProgress at h ⊢
  dsimp only
  rw [find?_append_right _ _ _ h]
  simp [List.find?, lpKey, lpPairKey]

theorem tsOf_upsert (s : DBState) (c : UpdateCall) :
    tsOf (upsertLessonProgress s c) c.userId c.moduleId c.lessonId =
      tsOf s c.userId c.moduleId c.lessonId + c.timeSpent := by
  cases h : findLessonProgress s c.userId c.moduleId c.lessonId with
  | none =>
    unfold tsOf
    rw [findLessonProgress_upsert_none s c h, h]
    simp
  | some ex =>
    unfold tsOf
    rw [findLessonProgress_upsert_some s c ex h, h]
    rfl

theorem isSome_upsert (s : DBState) (c : UpdateCall) :
    (findLessonProgress (upsertLessonProgress s c)
      c.userId c.moduleId c.lessonId).isSome = true := by
  cases h : findLessonProgress s c.userId c.moduleId c.lessonId with
  | none => rw [findLessonProgress_upsert_none s c h]; rfl
  | some ex => rw [findLessonProgress_upsert_some s c ex h]; rfl

/-! Unfolding `updateLessonProgress` into its three steps. -/

theorem applyCall_eq (s : DBState) (c : UpdateCall) :
    applyCall s c =
      updateModuleCompletionStatus
        (upsertLessonProgress (touchUserProgress s c.now c.userId c.moduleId) c)
        c.now c.userId c.moduleId :=
  rfl

theorem updateLessonProgress_fail_eq (s : DBState) (c : UpdateCall) :
    updateLessonProgress s c true =
      (upsertLessonProgress (touchUserProgress s c.now c.userId c.moduleId) c,
       findLessonProgress
         (upsertLessonProgress (touchUserProgress s c.now c.userId c.moduleId) c)
         c.userId c.moduleId c.lessonId) :=
  rfl

theorem runCalls_nil (s : DBState) : runCalls s [] = s := rfl

theorem runCalls_cons (s : DBState) (c : UpdateCall) (cs : List UpdateCall) :
    runCalls s (c :: cs) = runCalls (applyCall s c) cs := rfl

theorem tsOf_applyCall (s : DBState) (c : UpdateCall) :
    tsOf (applyCall s c) c.userId c.moduleId c.lessonId =
      tsOf s c.userId c.moduleId c.lessonId + c.timeSpent := by
  rw [applyCall_eq]
  have h1 : tsOf (updateModuleCompletionStatus
      (upsertLessonProgress (touchUserProgress s c.now c.userId c.moduleId) c)
      c.now c.userId c.moduleId) c.userId c.moduleId c.lessonId =
      tsOf (upsertLessonProgress (touchUserProgress s c.now c.userId c.moduleId) c)
        c.userId c.moduleId c.lessonId := by
    unfold tsOf
    rw [findLessonProgress_recompute]
  rw [h1, tsOf_upsert]
  unfold tsOf
  rw [findLessonProgress_touch]

theorem isSome_applyCall (s : DBState) (c : UpdateCall) :
    (findLessonProgress (applyCall s c) c.userId c.moduleId c.lessonId).isSome =
      true := by
  rw [applyCall_eq, findLessonProgress_recompute]
  exact isSome_upsert _ c

theorem tsOf_runCalls (u m : Nat) (lid : String) (calls : List UpdateCall) :
    ∀ s : DBState,
      (∀ c ∈ calls, c.userId = u ∧ c.moduleId = m ∧ c.lessonId = lid) →
      tsOf (runCalls s calls) u m lid =
        tsOf s u m lid + (calls.map (fun c => c.timeSpent)).sum := by
  induction calls with
  | nil => intro s _; simp [runCalls]
  | cons c cs ih =>
    intro s hall
    obtain ⟨hu, hm, hl⟩ := hall c (List.mem_cons_self c cs)
    rw [runCalls_cons,
      ih (applyCall s c) (fun c' hc' => hall c' (List.mem_cons_of_mem _ hc'))]
    have hstep := tsOf_applyCall s c
    rw [hu, hm, hl] at hstep
    rw [hstep]
    simp only [List.map_cons, List.sum_cons]
    omega

theorem isSome_runCalls (u m : Nat) (lid : String) (calls : List UpdateCall) :
    ∀ s : DBState, calls ≠ [] →
      (∀ c ∈ calls, c.userId = u ∧ c.moduleId = m ∧ c.lessonId = lid) →
      (findLessonProgress (runCalls s calls) u m lid).isSome = true := by
  induction calls with
  | nil => intro s h _; exact absurd rfl h
  | cons c cs ih =>
    intro s _ hall
    obtain ⟨hu, hm, hl⟩ := hall c (List.mem_cons_self c cs)
    cases cs with
    | nil =>
      rw [runCalls_cons, runCalls_nil]
      have hstep := isSome_applyCall s c
      rw [hu, hm, hl] at hstep
      exact hstep
    | cons d ds =>
      rw [runCalls_cons]
      exact ih (applyCall s c) (by simp)
        (fun c' hc' => hall c' (List.mem_cons_of_mem _ hc'))

/-- C1: over any sequence of `updateLessonProgress` calls for one
(user, module, lesson-or-quiz id) key with positive `timeSpent` deltas and no
pre-existing row, the stored `time_spent` equals the sum of the supplied
deltas — the first call stores the delta, every later call adds to the
existing value. -/
theorem c1_time_spent_accumulates (s : DBState) (u m : Nat) (lid : String)
    (calls : List UpdateCall)
    (htarget : ∀ c ∈ calls, c.userId = u ∧ c.moduleId = m ∧ c.lessonId = lid)
    (hpos : ∀ c ∈ calls, 0 < c.timeSpent)
    (hnone : findLessonProgress s u m lid = none) :
    tsOf (runCalls s calls) u m lid = (calls.map (fun c => c.timeSpent)).sum
    ∧ (calls ≠ [] →
        (findLessonProgress (runCalls s calls) u m lid).isSome = true) := by
  constructor
  · rw [tsOf_runCalls u m lid calls s htarget]
    unfold tsOf
    rw [hnone]
    simp
  · intro hne
    exact isSome_runCalls u m lid calls s hne htarget

/-- A two-lesson demonstration module used by the concrete witnesses. -/
def demoModule : ModuleRow :=
  ⟨1, "Algorithms", ⟨[⟨"lesson-1", "Intro"⟩, ⟨"lesson-2", "Sorting"⟩], [], 60⟩⟩

/-- A demonstration user. -/
def demoUser : UserRow := ⟨1, "alice"⟩

/-- Fresh store holding only the demonstration user and module. -/
def demoState : DBState := ⟨[demoUser], [demoModule], [], [], []⟩

/-- Two calls for the same lesson with deltas 60 and 30. -/
def c1calls : List UpdateCall :=
  [⟨10, 1, 1, "lesson-1", false, 60, none⟩,
   ⟨20, 1, 1, "lesson-1", true, 30, none⟩]

theorem c1_time_spent_accumulates_witness :
    (∀ c ∈ c1calls, c.userId = 1 ∧ c.moduleId = 1 ∧ c.lessonId = "lesson-1")
    ∧ (∀ c ∈ c1calls, 0 < c.timeSpent)
    ∧ findLessonProgress demoState 1 1 "lesson-1" = none
    ∧ tsOf (runCalls demoState c1calls) 1 1 "lesson-1" =
        (c1calls.map (fun c => c.timeSpent)).sum := by
  refine ⟨by decide, by decide, rfl, ?_⟩
  exact (c1_time_spent_accumulates demoState 1 1 "lesson-1" c1calls
    (by decide) (by decide) rfl).1

theorem aggOf_touch (s : DBState) (now u m : Nat) :
    aggOf (touchUserProgress s now u m) u m =
      some ((aggOf s u m).getD (0, false, none)) := by
  unfold aggOf
  rw [findUserProgress_touch]
  cases h : findUserProgress s u m with
  | none => rfl
  | some cur => rfl

/-- C9: when the aggregate recomputation inside `updateLessonProgress` fails
with a store error, the error is swallowed: the call still returns success
with the upserted `lesson_progress` row, and the `user_progress` aggregate
fields (`progress_percentage`, `completed`, `completion_date`) keep their
previous values (the schema defaults 0/false/NULL when the row was created
by this very call). -/
theorem c9_aggregate_failure_swallowed (s : DBState) (c : UpdateCall) :
    ((updateLessonProgress s c true).2).isSome = true
    ∧ aggOf (updateLessonProgress s c true).1 c.userId c.moduleId =
        some ((aggOf s c.userId c.moduleId).getD (0, false, none)) := by
  rw [updateLessonProgress_fail_eq]
  dsimp only
  constructor
  · exact isSome_upsert _ c
  · have h1 : aggOf
        (upsertLessonProgress (touchUserProgress s c.now c.userId c.moduleId) c)
        c.userId c.moduleId =
        aggOf (touchUserProgress s c.now c.userId c.moduleId)
          c.userId c.moduleId := by
      unfold aggOf findUserProgress
      rw [upsert_user_progress]
    rw [h1, aggOf_touch]

/-- C5 counterexample inputs: the same lesson completed at clock 100 and
re-completed at clock 200. -/
def c5call1 : UpdateCall := ⟨100, 1, 1, "lesson-1", true, 60, none⟩

/-- Second completion call for the C5 counterexample. -/
def c5call2 : UpdateCall := ⟨200, 1, 1, "lesson-1", true, 30, none⟩

/-- C5 is false on the code: re-supplying `completed = true` for an
already-completed row overwrites `completed_at` with the current time
(database.ts:414 binds `progressData.completed ? new Date().toISOString() :
existing.completed_at`), so the first completion timestamp 100 is replaced
by 200. -/
theorem c5_counterexample :
    completedAtOf (applyCall demoState c5call1) 1 1 "lesson-1" = some 100
    ∧ completedAtOf (applyCall (applyCall demoState c5call1) c5call2)
        1 1 "lesson-1" = some 200 := by
  constructor <;> rfl

/-- C5 amended: for an existing row, `updateLessonProgress` sets
`completed_at` to the current time whenever the supplied flag is true — even
when the row was already completed — and keeps the prior value when the flag
is false. -/
theorem c5_completed_at_follows_flag (s : DBState) (c : UpdateCall)
    (ex : LessonProgressRow)
    (h : findLessonProgress s c.userId c.moduleId c.lessonId = some ex) :
    completedAtOf (applyCall s c) c.userId c.moduleId c.lessonId =
      (if c.completed then some c.now else ex.completed_at) := by
  rw [applyCall_eq]
  unfold completedAtOf
  rw [findLessonProgress_recompute]
  have ht : findLessonProgress (touchUserProgress s c.now c.userId c.moduleId)
      c.userId c.moduleId c.lessonId = some ex := by
    rw [findLessonProgress_touch]; exact h
  rw [findLessonProgress_upsert_some _ c ex ht]
  rfl

theorem c5_completed_at_follows_flag_witness :
    findLessonProgress (applyCall demoState c5call1) 1 1 "lesson-1" =
      some ⟨1, 1, "lesson-1", true, 60, none, some 100, 100⟩
    ∧ completedAtOf (applyCall (applyCall demoState c5call1) c5call2)
        1 1 "lesson-1" = (if c5call2.completed then some c5call2.now
          else (some 100 : Option Nat)) := by
  refine ⟨rfl, ?_⟩
  exact c5_completed_at_follows_flag (applyCall demoState c5call1) c5call2
    ⟨1, 1, "lesson-1", true, 60, none, some 100, 100⟩ rfl

/-- C8: on first contact the `user_progress` row is created with
`started_at = last_accessed = now`, `completed = false`,
`progress_percentage = 0` (schema defaults); on any later call step 1 only
refreshes `last_accessed`; and no full call for the pair ever modifies
`started_at` once the row exists. -/
theorem c8_module_row_lifecycle (s : DBState) (now u m : Nat) :
    (findUserProgress s u m = none →
      findUserProgress (touchUserProgress s now u m) u m =
        some ⟨u, m, 0, false, some now, none, now⟩)
    ∧ (∀ cur, findUserProgress s u m = some cur →
        findUserProgress (touchUserProgress s now u m) u m =
          some { cur with last_accessed := now })
    ∧ (∀ c : UpdateCall, c.userId = u → c.moduleId = m →
        startedAtOf (applyCall s c) u m =
          (if findUserProgress s u m = none then some c.now
           else startedAtOf s u m)) := by
  refine ⟨?h1, ?h2, ?h3⟩
  case h1 =>
    intro h
    rw [findUserProgress_touch, h]
  case h2 =>
    intro cur h
    rw [findUserProgress_touch, h]
  case h3 =>
    intro c hu hm
    subst hu
    subst hm
    rw [applyCall_eq, startedAt_recompute]
    have h2 : startedAtOf
        (upsertLessonProgress (touchUserProgress s c.now c.userId c.moduleId) c)
        c.userId c.moduleId =
        startedAtOf (touchUserProgress s c.now c.userId c.moduleId)
          c.userId c.moduleId := by
      unfold startedAtOf findUserProgress
      rw [upsert_user_progress]
    rw [h2]
    unfold startedAtOf
    rw [findUserProgress_touch]
    cases h : findUserProgress s c.userId c.moduleId with
    | none => simp
    | some cur => simp [startedAtOf, h]

theorem c8_module_row_lifecycle_witness :
    findUserProgress demoState 1 1 = none
    ∧ findUserProgress (touchUserProgress demoState 7 1 1) 1 1 =
        some ⟨1, 1, 0, false, some 7, none, 7⟩ := by
  refine ⟨rfl, ?_⟩
  exact (c8_module_row_lifecycle demoState 7 1 1).1 rfl

theorem jsRound100_le_100 (c t : Nat) (h : c ≤ t) : jsRound100 c t ≤ 100 := by
  unfold jsRound100
  rcases Nat.eq_zero_or_pos t with ht | ht
  · subst ht; simp
  · have h2 : 200 * c + t < 101 * (2 * t) := by omega
    have h3 := (Nat.div_lt_iff_lt_mul (by omega : 0 < 2 * t)).mpr h2
    omega

theorem updateWhere_id_of (p : α → Bool) (g : α → α) (l : List α)
    (h : ∀ r ∈ l, p r = true → g r = r) :
    updateWhere p g l = l := by
  induction l with
  | nil => rfl
  | cons r rs ih =>
    rw [updateWhere, ih (fun a ha hp => h a (List.mem_cons_of_mem _ ha) hp)]
    by_cases hp : p r = true
    · rw [if_pos hp, h r (List.mem_cons_self r rs) hp]
    · rw [if_neg hp]

theorem aggDate_stable (s : DBState) (u m : Nat) (md : ModuleRow) (now2 : Nat)
    (cur : UserProgressRow) (pct : Nat) (cFlag : Bool) (cDate : Option Nat)
    (hC : aggCompleted s u m md = cFlag) :
    aggDate s u m md now2 (aggRow pct cFlag cDate cur) = cDate := by
  unfold aggDate
  rw [hC]
  cases cFlag <;> simp [aggRow]

theorem recompute_fixed (s : DBState) (now2 u m : Nat) (md : ModuleRow)
    (cur : UserProgressRow)
    (h1 : findModule s m = some md)
    (h2 : ¬md.content.lessons.length + md.content.quizzes.length = 0)
    (h3 : findUserProgress s u m = some cur)
    (hfix : ∀ r ∈ s.user_progress, upKey u m r = true →
        aggRow (aggPercent s u m md) (aggCompleted s u m md)
          (aggDate s u m md now2 cur) r = r) :
    updateModuleCompletionStatus s now2 u m = s := by
  rw [recompute_eq s now2 u m md cur h1 h2 h3, updateWhere_id_of _ _ _ hfix]

theorem recompute_idem (s : DBState) (now now2 u m : Nat) :
    updateModuleCompletionStatus (updateModuleCompletionStatus s now u m)
      now2 u m = updateModuleCompletionStatus s now u m := by
  cases h1 : findModule s m with
  | none =>
    rw [recompute_of_no_module s now u m h1, recompute_of_no_module s now2 u m h1]
  | some md =>
    by_cases h2 : md.content.lessons.length + md.content.quizzes.length = 0
    · rw [recompute_of_zero_items s now u m md h1 h2,
        recompute_of_zero_items s now2 u m md h1 h2]
    · cases h3 : findUserProgress s u m with
      | none =>
        rw [recompute_of_no_row s now u m md h1 h3,
          recompute_of_no_row s now2 u m md h1 h3]
      | some cur =>
        have hup : (updateModuleCompletionStatus s now u m).user_progress =
            updateWhere (upKey u m)
              (aggRow (aggPercent s u m md) (aggCompleted s u m md)
                (aggDate s u m md now cur))
              s.user_progress := by
          rw [recompute_eq s now u m md cur h1 h2 h3]
        have h1' : findModule (updateModuleCompletionStatus s now u m) m =
            some md := by
          unfold findModule
          rw [recompute_modules]
          exact h1
        have h3' : findUserProgress (updateModuleCompletionStatus s now u m) u m =
            some (aggRow (aggPercent s u m md) (aggCompleted s u m md)
              (aggDate s u m md now cur) cur) :=
          findUserProgress_recompute s now u m md cur h1 h2 h3
        have hPT : aggPercent (updateModuleCompletionStatus s now u m) u m md =
            aggPercent s u m md := by
          unfold aggPercent
          rw [completedLessonCount_recompute, completedQuizCount_recompute]
        have hCT : aggCompleted (updateModuleCompletionStatus s now u m) u m md =
            aggCompleted s u m md := by
          unfold aggCompleted
          rw [completedLessonCount_recompute, completedQuizCount_recompute]
        apply recompute_fixed _ now2 u m md _ h1' h2 h3'
        intro r hr hpr
        rw [hup, updateWhere_eq_map] at hr
        obtain ⟨r₀, hr₀, hfr⟩ := List.mem_map.mp hr
        by_cases hp0 : upKey u m r₀ = true
        · rw [if_pos hp0] at hfr
          subst hfr
          rw [hPT, hCT,
            aggDate_stable _ u m md now2 cur (aggPercent s u m md)
              (aggCompleted s u m md) (aggDate s u m md now cur) hCT]
          rfl
        · rw [if_neg hp0] at hfr
          subst hfr
          exact absurd hpr hp0

/-- C2 amended: after a recomputation for a (user, module) pair whose content
has at least one item and whose `user_progress` row exists, the persisted
percentage equals `round(100 * (completedLessons + completedQuizzes) /
totalItems)`; it lies in [0,100] provided the completion counts do not exceed
the content totals (rows whose ids lie outside the content document can push
it above 100 — see the counterexample); and recomputation with no new
lesson-progress data is idempotent. -/
theorem c2_progress_percentage_formula (s : DBState) (now now2 u m : Nat)
    (md : ModuleRow) (cur : UserProgressRow)
    (h1 : findModule s m = some md)
    (h2 : ¬md.content.lessons.length + md.content.quizzes.length = 0)
    (h3 : findUserProgress s u m = some cur)
    (hL : completedLessonCount s u m ≤ md.content.lessons.length)
    (hQ : completedQuizCount s u m ≤ md.content.quizzes.length) :
    progressPercentageOf (updateModuleCompletionStatus s now u m) u m =
      some (jsRound100 (completedLessonCount s u m + completedQuizCount s u m)
        (md.content.lessons.length + md.content.quizzes.length))
    ∧ jsRound100 (completedLessonCount s u m + completedQuizCount s u m)
        (md.content.lessons.length + md.content.quizzes.length) ≤ 100
    ∧ updateModuleCompletionStatus (updateModuleCompletionStatus s now u m)
        now2 u m = updateModuleCompletionStatus s now u m := by
  refine ⟨?_, ?_, recompute_idem s now now2 u m⟩
  · unfold progressPercentageOf
    rw [findUserProgress_recompute s now u m md cur h1 h2 h3]
    rfl
  · exact jsRound100_le_100 _ _ (Nat.add_le_add hL hQ)

/-- One completed lesson out of two, used for the C2 witness. -/
def c2call : UpdateCall := ⟨5, 1, 1, "lesson-1", true, 60, none⟩

/-- State after completing one of the two demo lessons. -/
def c2state : DBState := applyCall demoState c2call

theorem c2_progress_percentage_formula_witness :
    findModule c2state 1 = some demoModule
    ∧ progressPercentageOf (updateModuleCompletionStatus c2state 9 1 1) 1 1 =
        some 50
    ∧ updateModuleCompletionStatus (updateModuleCompletionStatus c2state 9 1 1)
        11 1 1 = updateModuleCompletionStatus c2state 9 1 1 := by
  have h := c2_progress_percentage_formula c2state 9 11 1 1 demoModule
    ⟨1, 1, 50, false, some 5, none, 5⟩ rfl (by decide) rfl (by decide) (by decide)
  exact ⟨rfl, h.1.trans (by decide), h.2.2⟩

/-- Three completed lesson rows against a two-lesson module: the third id,
`lesson-3`, does not occur in the content document but is still counted. -/
def c2badCalls : List UpdateCall :=
  [⟨5, 1, 1, "lesson-1", true, 10, none⟩,
   ⟨6, 1, 1, "lesson-2", true, 10, none⟩,
   ⟨7, 1, 1, "lesson-3", true, 10, none⟩]

/-- C2 is false as stated: the recomputation counts every completed row whose
id merely matches `lesson-%`, without checking it against the content
document, so the persisted percentage can leave [0,100] — here
`round(100 * 3 / 2) = 150`. -/
theorem c2_counterexample :
    progressPercentageOf (runCalls demoState c2badCalls) 1 1 = some 150
    ∧ ¬150 ≤ 100 :=
  ⟨rfl, by decide⟩

/-! Machinery for C3: the UNIQUE row-key invariant of `lesson_progress`,
monotonicity of the completion counts under completed-flag-true calls, and
the consistency invariant tying the cached `completed` flag to the counts. -/

/-- The `UNIQUE (user_id, module_id, lesson_id)` constraint of the
`lesson_progress` table (schema.sql), as an invariant on the list model. -/
def lpUnique (s : DBState) : Prop :=
  s.lesson_progress.Pairwise
    (fun a b => ¬(a.user_id = b.user_id ∧ a.module_id = b.module_id ∧
      a.lesson_id = b.lesson_id))

theorem lpKey_fields {u m : Nat} {lid : String} {r : LessonProgressRow}
    (h : lpKey u m lid r = true) :
    r.user_id = u ∧ r.module_id = m ∧ r.lesson_id = lid := by
  simp only [lpKey, lpPairKey, Bool.and_eq_true, beq_iff_eq] at h
  tauto

theorem row_eq_of_lpUnique (s : DBState) (hU : lpUnique s) (u m : Nat)
    (lid : String) (ex r : LessonProgressRow)
    (hex : findLessonProgress s u m lid = some ex)
    (hr : r ∈ s.lesson_progress) (hkr : lpKey u m lid r = true) : r = ex := by
  have hex' : s.lesson_progress.find? (lpKey u m lid) = some ex := hex
  have hexmem : ex ∈ s.lesson_progress := List.mem_of_find?_eq_some hex'
  have hkex : lpKey u m lid ex = true := List.find?_some hex'
  by_cases heq : r = ex
  · exact heq
  · exfalso
    have hsym : Symmetric (fun a b : LessonProgressRow =>
        ¬(a.user_id = b.user_id ∧ a.module_id = b.module_id ∧
          a.lesson_id = b.lesson_id)) := by
      intro a b hab hba
      exact hab ⟨hba.1.symm, hba.2.1.symm, hba.2.2.symm⟩
    obtain ⟨h1, h2, h3⟩ := lpKey_fields hkr
    obtain ⟨h4, h5, h6⟩ := lpKey_fields hkex
    exact (List.Pairwise.forall hsym hU hr hexmem heq)
      ⟨h1.trans h4.symm, h2.trans h5.symm, h3.trans h6.symm⟩

theorem completedLessonCount_le_upsert (s : DBState) (c : UpdateCall) (u m : Nat)
    (hc : c.completed = true) :
    completedLessonCount s u m ≤
      completedLessonCount (upsertLessonProgress s c) u m := by
  unfold upsertLessonProgress
  cases h : findLessonProgress s c.userId c.moduleId c.lessonId with
  | some ex =>
    dsimp only
    unfold completedLessonCount
    apply countP_le_updateWhere_mem
    intro r _ _ hq
    have hq' := hq
    simp only [Bool.and_eq_true] at hq'
    show (lpPairKey u m r && c.completed && likeStarts "lesson-" r.lesson_id) =
      true
    rw [hc]
    simp [hq'.1.1, hq'.2]
  | none =>
    dsimp only
    unfold completedLessonCount
    rw [List.countP_append]
    exact Nat.le_add_right _ _

theorem completedQuizCount_le_upsert (s : DBState) (c : UpdateCall) (u m : Nat)
    (hU : lpUnique s) (hc : c.completed = true) :
    completedQuizCount s u m ≤
      completedQuizCount (upsertLessonProgress s c) u m := by
  unfold upsertLessonProgress
  cases h : findLessonProgress s c.userId c.moduleId c.lessonId with
  | some ex =>
    dsimp only
    unfold completedQuizCount
    apply countP_le_updateWhere_mem
    intro r hrmem hp hq
    have hre : r = ex :=
      row_eq_of_lpUnique s hU c.userId c.moduleId c.lessonId ex r h hrmem hp
    subst hre
    have hq' := hq
    simp only [Bool.and_eq_true] at hq'
    show (lpPairKey u m r && c.completed && likeStarts "quiz-" r.lesson_id &&
      ((match c.quizScore with
        | some q => some q
        | none => r.quiz_score : Option Int)).isSome) = true
    rw [hc]
    cases hcs : c.quizScore with
    | some q => simp [hq'.1.1.1, hq'.1.2]
    | none => simp [hq'.1.1.1, hq'.1.2, hq'.2]
  | none =>
    dsimp only
    unfold completedQuizCount
    rw [List.countP_append]
    exact Nat.le_add_right _ _

theorem lpUnique_upsert (s : DBState) (c : UpdateCall) (hU : lpUnique s) :
    lpUnique (upsertLessonProgress s c) := by
  unfold upsertLessonProgress
  cases h : findLessonProgress s c.userId c.moduleId c.lessonId with
  | some ex =>
    dsimp only
    unfold lpUnique at hU ⊢
    dsimp only
    rw [updateWhere_eq_map, List.pairwise_map]
    refine hU.imp ?_
    intro a b hab hkeys
    have ka : ∀ x : LessonProgressRow,
        ((if lpKey c.userId c.moduleId c.lessonId x = true then upsertRow c ex x
          else x).user_id = x.user_id ∧
         (if lpKey c.userId c.moduleId c.lessonId x = true then upsertRow c ex x
          else x).module_id = x.module_id ∧
         (if lpKey c.userId c.moduleId c.lessonId x = true then upsertRow c ex x
          else x).lesson_id = x.lesson_id) := by
      intro x
      by_cases hx : lpKey c.userId c.moduleId c.lessonId x = true <;>
        simp [hx, upsertRow]
    obtain ⟨ha1, ha2, ha3⟩ := ka a
    obtain ⟨hb1, hb2, hb3⟩ := ka b
    refine hab ⟨?_, ?_, ?_⟩
    · rw [← ha1, ← hb1]; exact hkeys.1
    · rw [← ha2, ← hb2]; exact hkeys.2.1
    · rw [← ha3, ← hb3]; exact hkeys.2.2
  | none =>
    dsimp only
    unfold lpUnique at hU ⊢
    dsimp only
    rw [List.pairwise_append]
    refine ⟨hU, List.pairwise_singleton _ _, ?_⟩
    intro a ha b hb
    rw [List.mem_singleton] at hb
    subst hb
    intro hkeys
    have hka : lpKey c.userId c.moduleId c.lessonId a = true := by
      simp [lpKey, lpPairKey, hkeys.1, hkeys.2.1, hkeys.2.2]
    have h' : s.lesson_progress.find? (lpKey c.userId c.moduleId c.lessonId) =
      none := h
    exact List.find?_eq_none.mp h' a ha hka

theorem lpUnique_applyCall (s : DBState) (c : UpdateCall) (hU : lpUnique s) :
    lpUnique (applyCall s c) := by
  rw [applyCall_eq]
  unfold lpUnique
  rw [recompute_lesson_progress]
  have h1 : lpUnique (touchUserProgress s c.now c.userId c.moduleId) := by
    unfold lpUnique
    rw [touch_lesson_progress]
    exact hU
  exact lpUnique_upsert _ c h1

theorem moduleCompleted_touch (s : DBState) (now u m : Nat) :
    moduleCompleted (touchUserProgress s now u m) u m = moduleCompleted s u m := by
  unfold moduleCompleted
  rw [findUserProgress_touch]
  cases h : findUserProgress s u m <;> rfl

theorem completionDateOf_touch (s : DBState) (now u m : Nat) :
    completionDateOf (touchUserProgress s now u m) u m =
      completionDateOf s u m := by
  unfold completionDateOf
  rw [findUserProgress_touch]
  cases h : findUserProgress s u m <;> rfl

theorem moduleCompleted_upsert (s : DBState) (c : UpdateCall) (u m : Nat) :
    moduleCompleted (upsertLessonProgress s c) u m = moduleCompleted s u m := by
  unfold moduleCompleted findUserProgress
  rw [upsert_user_progress]

theorem completionDateOf_upsert (s : DBState) (c : UpdateCall) (u m : Nat) :
    completionDateOf (upsertLessonProgress s c) u m = completionDateOf s u m := by
  unfold completionDateOf findUserProgress
  rw [upsert_user_progress]

theorem findUserProgress_touch_some (s : DBState) (now u m : Nat) :
    findUserProgress (touchUserProgress s now u m) u m =
      some (((findUserProgress s u m).map (touchRow now)).getD
        ⟨u, m, 0, false, some now, none, now⟩) := by
  rw [findUserProgress_touch]
  cases h : findUserProgress s u m <;> rfl

theorem touched_completed (s : DBState) (now u m : Nat) :
    (((findUserProgress s u m).map (touchRow now)).getD
      ⟨u, m, 0, false, some now, none, now⟩).completed =
      moduleCompleted s u m := by
  unfold moduleCompleted
  cases h : findUserProgress s u m <;> rfl

theorem touched_completion_date (s : DBState) (now u m : Nat) :
    (((findUserProgress s u m).map (touchRow now)).getD
      ⟨u, m, 0, false, some now, none, now⟩).completion_date =
      completionDateOf s u m := by
  unfold completionDateOf
  cases h : findUserProgress s u m <;> rfl

theorem aggConsistentB_holds (s : DBState) (u m : Nat)
    (h : ∀ md, findModule s m = some md → moduleCompleted s u m = true →
      md.content.lessons.length ≤ completedLessonCount s u m ∧
      md.content.quizzes.length ≤ completedQuizCount s u m) :
    aggConsistentB s u m = true := by
  unfold aggConsistentB
  cases hM : findModule s m with
  | none => cases hF : moduleCompleted s u m <;> rfl
  | some md =>
    cases hF : moduleCompleted s u m with
    | false => rfl
    | true =>
      obtain ⟨hL, hQ⟩ := h md hM hF
      simp [hL, hQ]

theorem counts_of_aggConsistentB (s : DBState) (u m : Nat) (md : ModuleRow)
    (hinv : aggConsistentB s u m = true) (hM : findModule s m = some md)
    (hF : moduleCompleted s u m = true) :
    md.content.lessons.length ≤ completedLessonCount s u m ∧
    md.content.quizzes.length ≤ completedQuizCount s u m := by
  unfold aggConsistentB at hinv
  rw [hM, hF] at hinv
  simpa using hinv

theorem c3_step (s : DBState) (c : UpdateCall)
    (hc : c.completed = true) (hU : lpUnique s)
    (hinv : aggConsistentB s c.userId c.moduleId = true) :
    (moduleCompleted s c.userId c.moduleId = true →
      moduleCompleted (applyCall s c) c.userId c.moduleId = true ∧
      completionDateOf (applyCall s c) c.userId c.moduleId =
        completionDateOf s c.userId c.moduleId)
    ∧ aggConsistentB (applyCall s c) c.userId c.moduleId = true := by
  rw [applyCall_eq]
  set cur2 := ((findUserProgress s c.userId c.moduleId).map (touchRow c.now)).getD
    ⟨c.userId, c.moduleId, 0, false, some c.now, none, c.now⟩ with hcurdef
  set s1 := touchUserProgress s c.now c.userId c.moduleId with hs1
  set s2 := upsertLessonProgress s1 c with hs2
  have hM2 : findModule s2 c.moduleId = findModule s c.moduleId := by
    rw [hs2, hs1, findModule_upsert, findModule_touch]
  have hF2 : moduleCompleted s2 c.userId c.moduleId =
      moduleCompleted s c.userId c.moduleId := by
    rw [hs2, hs1, moduleCompleted_upsert, moduleCompleted_touch]
  have hD2 : completionDateOf s2 c.userId c.moduleId =
      completionDateOf s c.userId c.moduleId := by
    rw [hs2, hs1, completionDateOf_upsert, completionDateOf_touch]
  have hcur2 : findUserProgress s2 c.userId c.moduleId = some cur2 := by
    rw [hs2, hs1, findUserProgress_upsert, findUserProgress_touch_some]
  have hc2c : cur2.completed = moduleCompleted s c.userId c.moduleId := by
    rw [hcurdef]
    exact touched_completed s c.now c.userId c.moduleId
  have hc2d : cur2.completion_date = completionDateOf s c.userId c.moduleId := by
    rw [hcurdef]
    exact touched_completion_date s c.now c.userId c.moduleId
  have hUL : lpUnique s1 := by
    rw [hs1]
    unfold lpUnique
    rw [touch_lesson_progress]
    exact hU
  have hcL : completedLessonCount s c.userId c.moduleId ≤
      completedLessonCount s2 c.userId c.moduleId := by
    rw [hs2]
    refine Nat.le_trans ?_
      (completedLessonCount_le_upsert s1 c c.userId c.moduleId hc)
    rw [hs1, completedLessonCount_touch]
  have hcQ : completedQuizCount s c.userId c.moduleId ≤
      completedQuizCount s2 c.userId c.moduleId := by
    rw [hs2]
    refine Nat.le_trans ?_
      (completedQuizCount_le_upsert s1 c c.userId c.moduleId hUL hc)
    rw [hs1, completedQuizCount_touch]
  cases hM : findModule s c.moduleId with
  | none =>
    have hM2' : findModule s2 c.moduleId = none := hM2.trans hM
    rw [recompute_of_no_module s2 c.now c.userId c.moduleId hM2']
    refine ⟨fun hflag => ⟨hF2.trans hflag, hD2⟩, ?_⟩
    apply aggConsistentB_holds
    intro md' hM' _
    rw [hM2'] at hM'
    exact Option.noConfusion hM'
  | some md =>
    by_cases htot : md.content.lessons.length + md.content.quizzes.length = 0
    · have hM2' : findModule s2 c.moduleId = some md := hM2.trans hM
      rw [recompute_of_zero_items s2 c.now c.userId c.moduleId md hM2' htot]
      refine ⟨fun hflag => ⟨hF2.trans hflag, hD2⟩, ?_⟩
      apply aggConsistentB_holds
      intro md' hM' _
      have hmd : md' = md := Option.some_inj.mp (hM'.symm.trans hM2')
      subst hmd
      constructor <;> omega
    · have hM2' : findModule s2 c.moduleId = some md := hM2.trans hM
      have hrec := findUserProgress_recompute s2 c.now c.userId c.moduleId md
        cur2 hM2' htot hcur2
      have hflag' : moduleCompleted
          (updateModuleCompletionStatus s2 c.now c.userId c.moduleId)
          c.userId c.moduleId = aggCompleted s2 c.userId c.moduleId md := by
        unfold moduleCompleted
        rw [hrec]
        rfl
      have hdate' : completionDateOf
          (updateModuleCompletionStatus s2 c.now c.userId c.moduleId)
          c.userId c.moduleId = aggDate s2 c.userId c.moduleId md c.now cur2 := by
        unfold completionDateOf
        rw [hrec]
        rfl
      refine ⟨fun hflag => ?_, ?_⟩
      · obtain ⟨hL, hQ⟩ := counts_of_aggConsistentB s c.userId c.moduleId md
          hinv hM hflag
        have hC' : aggCompleted s2 c.userId c.moduleId md = true := by
          unfold aggCompleted
          simp only [Bool.and_eq_true, decide_eq_true_eq]
          exact ⟨Nat.le_trans hL hcL, Nat.le_trans hQ hcQ⟩
        refine ⟨hflag'.trans hC', ?_⟩
        rw [hdate']
        unfold aggDate
        rw [hC', hc2c, hflag]
        simpa using hc2d
      · apply aggConsistentB_holds
        intro md' hM' hF'
        have hMs' : findModule
            (updateModuleCompletionStatus s2 c.now c.userId c.moduleId)
            c.moduleId = some md := by
          unfold findModule
          rw [recompute_modules]
          exact hM2'
        have hmd : md' = md := Option.some_inj.mp (hM'.symm.trans hMs')
        subst hmd
        rw [hflag'] at hF'
        rw [completedLessonCount_recompute, completedQuizCount_recompute]
        unfold aggCompleted at hF'
        simp only [Bool.and_eq_true, decide_eq_true_eq] at hF'
        exact hF'

theorem c3_run (u m : Nat) (calls : List UpdateCall) :
    ∀ s : DBState,
      (∀ c ∈ calls, c.completed = true ∧ c.userId = u ∧ c.moduleId = m) →
      lpUnique s → aggConsistentB s u m = true →
      moduleCompleted s u m = true →
      moduleCompleted (runCalls s calls) u m = true ∧
      completionDateOf (runCalls s calls) u m = completionDateOf s u m := by
  induction calls with
  | nil => intro s _ _ _ hf; exact ⟨hf, rfl⟩
  | cons c cs ih =>
    intro s hall hU hinv hf
    obtain ⟨hc, hu, hm⟩ := hall c (List.mem_cons_self c cs)
    subst hu
    subst hm
    have hstep := c3_step s c hc hU hinv
    obtain ⟨hf', hd'⟩ := hstep.1 hf
    rw [runCalls_cons]
    obtain ⟨hfin, hdfin⟩ := ih (applyCall s c)
      (fun c' hc' => hall c' (List.mem_cons_of_mem _ hc'))
      (lpUnique_applyCall s c hU) hstep.2 hf'
    exact ⟨hfin, hdfin.trans hd'⟩

theorem c3_transition (s : DBState) (c : UpdateCall)
    (hoff : moduleCompleted s c.userId c.moduleId = false)
    (hon : moduleCompleted (applyCall s c) c.userId c.moduleId = true) :
    completionDateOf (applyCall s c) c.userId c.moduleId = some c.now := by
  rw [applyCall_eq] at hon ⊢
  set cur2 := ((findUserProgress s c.userId c.moduleId).map (touchRow c.now)).getD
    ⟨c.userId, c.moduleId, 0, false, some c.now, none, c.now⟩ with hcurdef
  set s1 := touchUserProgress s c.now c.userId c.moduleId with hs1
  set s2 := upsertLessonProgress s1 c with hs2
  have hF2 : moduleCompleted s2 c.userId c.moduleId = false := by
    rw [hs2, hs1, moduleCompleted_upsert, moduleCompleted_touch]
    exact hoff
  have hcur2 : findUserProgress s2 c.userId c.moduleId = some cur2 := by
    rw [hs2, hs1, findUserProgress_upsert, findUserProgress_touch_some]
  have hc2c : cur2.completed = false := by
    rw [hcurdef]
    exact (touched_completed s c.now c.userId c.moduleId).trans hoff
  cases hM2 : findModule s2 c.moduleId with
  | none =>
    rw [recompute_of_no_module s2 c.now c.userId c.moduleId hM2, hF2] at hon
    exact Bool.noConfusion hon
  | some md =>
    by_cases htot : md.content.lessons.length + md.content.quizzes.length = 0
    · rw [recompute_of_zero_items s2 c.now c.userId c.moduleId md hM2 htot,
        hF2] at hon
      exact Bool.noConfusion hon
    · have hrec := findUserProgress_recompute s2 c.now c.userId c.moduleId md
        cur2 hM2 htot hcur2
      have hflag' : moduleCompleted
          (updateModuleCompletionStatus s2 c.now c.userId c.moduleId)
          c.userId c.moduleId = aggCompleted s2 c.userId c.moduleId md := by
        unfold moduleCompleted
        rw [hrec]
        rfl
      rw [hflag'] at hon
      unfold completionDateOf
      rw [hrec]
      show aggDate s2 c.userId c.moduleId md c.now cur2 = some c.now
      unfold aggDate
      rw [hon, hc2c]
      rfl

/-- C3 amended: provided every call supplies `completed = true` (the flag
replaces rather than ORs, so re-supplying `completed = false` for a completed
item makes the module flag revert — see the counterexample), and starting
from a state satisfying the schema's row-uniqueness and the flag/count
consistency invariant, the module `completed` flag never reverts and
`completion_date` is stable once set; moreover on any call that transitions
the flag from false to true, `completion_date` is written as that call's
current time. -/
theorem c3_completed_monotone (s : DBState) (u m : Nat) (calls : List UpdateCall)
    (hall : ∀ c ∈ calls, c.completed = true ∧ c.userId = u ∧ c.moduleId = m)
    (hU : lpUnique s) (hinv : aggConsistentB s u m = true) :
    (moduleCompleted s u m = true →
      moduleCompleted (runCalls s calls) u m = true ∧
      completionDateOf (runCalls s calls) u m = completionDateOf s u m)
    ∧ (∀ c : UpdateCall, c.userId = u → c.moduleId = m →
        moduleCompleted s u m = false →
        moduleCompleted (applyCall s c) u m = true →
        completionDateOf (applyCall s c) u m = some c.now) := by
  constructor
  · exact c3_run u m calls s hall hU hinv
  · intro c hu hm hoff hon
    subst hu
    subst hm
    exact c3_transition s c hoff hon

/-- Completing lesson-1 of the two-lesson demo module. -/
def c3on : UpdateCall := ⟨10, 1, 1, "lesson-1", true, 5, none⟩

/-- Completing lesson-2, which completes the module. -/
def c3on2 : UpdateCall := ⟨12, 1, 1, "lesson-2", true, 5, none⟩

/-- Re-supplying lesson-1 as not completed. -/
def c3off : UpdateCall := ⟨20, 1, 1, "lesson-1", false, 5, none⟩

/-- A further completed=true call after completion. -/
def c3again : UpdateCall := ⟨30, 1, 1, "lesson-1", true, 5, none⟩

/-- C3 is false as stated: the recomputation stores
`completed = isCompleted` unconditionally (database.ts:540-543), so a later
call that re-supplies a lesson with `completed = false` drops the count below
the total and reverts the module flag from true back to false. -/
theorem c3_counterexample :
    moduleCompleted (runCalls demoState [c3on, c3on2]) 1 1 = true
    ∧ moduleCompleted (runCalls demoState [c3on, c3on2, c3off]) 1 1 = false :=
  ⟨rfl, rfl⟩

instance lpUnique_decidable (s : DBState) : Decidable (lpUnique s) := by
  unfold lpUnique
  infer_instance

theorem c3_completed_monotone_witness :
    lpUnique (runCalls demoState [c3on, c3on2])
    ∧ aggConsistentB (runCalls demoState [c3on, c3on2]) 1 1 = true
    ∧ moduleCompleted (runCalls demoState [c3on, c3on2]) 1 1 = true
    ∧ moduleCompleted (runCalls (runCalls demoState [c3on, c3on2]) [c3again])
        1 1 = true
    ∧ completionDateOf (runCalls (runCalls demoState [c3on, c3on2]) [c3again])
        1 1 = completionDateOf (runCalls demoState [c3on, c3on2]) 1 1 := by
  have h := c3_completed_monotone (runCalls demoState [c3on, c3on2]) 1 1
    [c3again] (by decide) (by decide) (by decide)
  obtain ⟨h1, h2⟩ := h.1 (by decide)
  exact ⟨by decide, by decide, by decide, h1, h2⟩

/-- A one-lesson module for the certificate-gate scenarios. -/
def c4Module : ModuleRow := ⟨2, "Mini", ⟨[⟨"lesson-1", "Only"⟩], [], 30⟩⟩

/-- Fresh store with the one-lesson module. -/
def c4base : DBState := ⟨[demoUser], [c4Module], [], [], []⟩

/-- State where the user completed only `quiz-1` (never a lesson) of the
one-lesson module. -/
def c4state : DBState := applyCall c4base ⟨5, 1, 2, "quiz-1", true, 30, some 50⟩

/-- State where the user completed the single lesson of the module. -/
def c4goodState : DBState :=
  applyCall c4base ⟨5, 1, 2, "lesson-1", true, 30, none⟩

/-- C4 is false as stated: the eligibility query counts ALL completed
`lesson_progress` rows — quiz rows included (database.ts:553-556 filters only
on `completed = 1`) — so a user with zero completed lessons but one completed
quiz row passes the 80% "lesson" threshold and receives a certificate. -/
theorem c4_counterexample :
    resultOk (generateCertificate c4state 99 1 2).2 = true
    ∧ completedLessonCount c4state 1 2 = 0
    ∧ (findModule c4state 2).map (fun md => md.content.lessons.length) = some 1
    ∧ 5 * completedLessonCount c4state 1 2 < 4 * 1 :=
  ⟨rfl, rfl, rfl, by decide⟩

/-- C4 amended: for an existing user and module with no conflicting
certificate row, `generateCertificate` fails with "Module not sufficiently
completed" exactly when the count of ALL completed LessonProgress rows for
the pair (lesson and quiz rows alike, not only lessons) is below 80% of the
module's lesson count, and otherwise succeeds, appending exactly one
certificate row carrying the generated code; no quiz has to be passed. -/
theorem c4_certificate_gate (s : DBState) (now u m : Nat) (md : ModuleRow)
    (user : UserRow)
    (hM : findModule s m = some md)
    (hu : findUser s u = some user)
    (hclash : s.certificates.any (fun cr =>
        cr.certificate_code == certCode now u m ||
          (cr.user_id == u && cr.module_id == m)) = false) :
    (5 * (completedRowsFor s u m).length < 4 * md.content.lessons.length →
      generateCertificate s now u m =
        (s, .error "Module not sufficiently completed"))
    ∧ (¬5 * (completedRowsFor s u m).length < 4 * md.content.lessons.length →
      generateCertificate s now u m =
        ({ s with
            certificates := s.certificates ++
              [⟨u, m, certCode now u m,
                ⟨user.username, md.title, now,
                 ((completedRowsFor s u m).map (fun r => r.time_spent)).sum⟩⟩] },
         .ok ⟨u, m, certCode now u m,
              ⟨user.username, md.title, now,
               ((completedRowsFor s u m).map (fun r => r.time_spent)).sum⟩⟩)) := by
  constructor
  · intro hlt
    unfold generateCertificate
    rw [hM, hu]
    dsimp only
    rw [if_pos hlt]
  · intro hge
    unfold generateCertificate
    rw [hM, hu]
    dsimp only
    rw [if_neg hge, if_neg (by rw [hclash]; simp)]

theorem c4_certificate_gate_witness :
    (5 * (completedRowsFor c4base 1 2).length < 4 * c4Module.content.lessons.length
      ∧ generateCertificate c4base 99 1 2 =
          (c4base, .error "Module not sufficiently completed"))
    ∧ resultOk (generateCertificate c4goodState 99 1 2).2 = true := by
  have h := c4_certificate_gate c4base 99 1 2 c4Module demoUser rfl rfl (by decide)
  have h2 := c4_certificate_gate c4goodState 99 1 2 c4Module demoUser rfl rfl
    (by decide)
  refine ⟨⟨by decide, h.1 (by decide)⟩, ?_⟩
  rw [h2.2 (by decide)]
  rfl

/-- What a successful `generateCertificate` run implies: the lookups hit, the
threshold passed, and the state gained exactly the one new row. -/
theorem generateCertificate_success_shape (s : DBState) (now u m : Nat)
    (h : resultOk (generateCertificate s now u m).2 = true) :
    ∃ md user, findModule s m = some md ∧ findUser s u = some user ∧
      (generateCertificate s now u m).1 =
        { s with
            certificates := s.certificates ++
              [⟨u, m, certCode now u m,
                ⟨user.username, md.title, now,
                 ((completedRowsFor s u m).map (fun r => r.time_spent)).sum⟩⟩] } := by
  unfold generateCertificate at h ⊢
  cases hM : findModule s m with
  | none => rw [hM] at h; simp [resultOk] at h
  | some md =>
    cases hu : findUser s u with
    | none => rw [hM, hu] at h; simp [resultOk] at h
    | some user =>
      rw [hM, hu] at h
      dsimp only at h ⊢
      by_cases hlt : 5 * (completedRowsFor s u m).length <
          4 * md.content.lessons.length
      · rw [if_pos hlt] at h; simp [resultOk] at h
      · rw [if_neg hlt] at h ⊢
        by_cases hclash : s.certificates.any (fun cr =>
            cr.certificate_code == certCode now u m ||
              (cr.user_id == u && cr.module_id == m)) = true
        · rw [if_pos hclash] at h; simp [resultOk] at h
        · rw [if_neg hclash]
          exact ⟨md, user, rfl, rfl, rfl⟩

/-- Any `generateCertificate` call against a store that already holds a
certificate row for the pair leaves the store unchanged and fails (the
UNIQUE (user_id, module_id) constraint rejects the INSERT). -/
theorem generateCertificate_dup (s : DBState) (now u m : Nat)
    (hex : ∃ cr ∈ s.certificates, cr.user_id = u ∧ cr.module_id = m) :
    (generateCertificate s now u m).1 = s
    ∧ resultOk (generateCertificate s now u m).2 = false := by
  unfold generateCertificate
  cases hM : findModule s m with
  | none => exact ⟨rfl, rfl⟩
  | some md =>
    cases hu : findUser s u with
    | none => exact ⟨rfl, rfl⟩
    | some user =>
      dsimp only
      by_cases hlt : 5 * (completedRowsFor s u m).length <
          4 * md.content.lessons.length
      · rw [if_pos hlt]; exact ⟨rfl, rfl⟩
      · rw [if_neg hlt]
        obtain ⟨cr, hcr, hcru, hcrm⟩ := hex
        have hclash : s.certificates.any (fun cr =>
            cr.certificate_code == certCode now u m ||
              (cr.user_id == u && cr.module_id == m)) = true := by
          rw [List.any_eq_true]
          exact ⟨cr, hcr, by simp [hcru, hcrm]⟩
        rw [if_pos hclash]
        exact ⟨rfl, rfl⟩

/-- C6: after a successful issuance for a (user, module) pair, a second
`generateCertificate` call for the same pair never creates a second row — it
leaves the certificates table unchanged and fails, because the stored row
violates the schema's UNIQUE (user_id, module_id) on INSERT. -/
theorem c6_duplicate_certificate_rejected (s : DBState) (now now2 u m : Nat)
    (h : resultOk (generateCertificate s now u m).2 = true) :
    (generateCertificate (generateCertificate s now u m).1 now2 u m).1 =
      (generateCertificate s now u m).1
    ∧ resultOk
        (generateCertificate (generateCertificate s now u m).1 now2 u m).2 =
        false := by
  obtain ⟨md, user, _, _, hs1⟩ := generateCertificate_success_shape s now u m h
  apply generateCertificate_dup
  rw [hs1]
  refine ⟨⟨u, m, certCode now u m,
    ⟨user.username, md.title, now,
     ((completedRowsFor s u m).map (fun r => r.time_spent)).sum⟩⟩, ?_, rfl, rfl⟩
  dsimp only
  exact List.mem_append_right _ (List.mem_singleton.mpr rfl)

theorem c6_duplicate_certificate_rejected_witness :
    resultOk (generateCertificate c4goodState 99 1 2).2 = true
    ∧ (generateCertificate (generateCertificate c4goodState 99 1 2).1 100 1 2).1 =
        (generateCertificate c4goodState 99 1 2).1
    ∧ resultOk
        (generateCertificate (generateCertificate c4goodState 99 1 2).1
          100 1 2).2 = false := by
  have h := c6_duplicate_certificate_rejected c4goodState 99 100 1 2 rfl
  exact ⟨rfl, h.1, h.2⟩

/-- C7: `resetModuleProgress` removes the pair's ModuleProgress row and all
its LessonProgress rows and nothing else: `getModuleProgress` then returns
(null, []); users, modules and certificates — hence `verifyCertificate` —
are untouched, and every other (user, module) pair reads back unchanged. -/
theorem c7_reset_frame (s : DBState) (u m : Nat) :
    getModuleProgress (resetModuleProgress s u m).1 u m = (none, [])
    ∧ (resetModuleProgress s u m).1.certificates = s.certificates
    ∧ (resetModuleProgress s u m).1.users = s.users
    ∧ (resetModuleProgress s u m).1.modules = s.modules
    ∧ (∀ code, verifyCertificate (resetModuleProgress s u m).1 code =
        verifyCertificate s code)
    ∧ (∀ u' m', ¬(u' = u ∧ m' = m) →
        getModuleProgress (resetModuleProgress s u m).1 u' m' =
          getModuleProgress s u' m') := by
  refine ⟨?_, rfl, rfl, rfl, fun code => rfl, ?_⟩
  · unfold getModuleProgress resetModuleProgress findUserProgress
      lessonProgressFor
    dsimp only
    rw [find?_filter_not_self, filter_filter_not_self]
  · intro u' m' hne
    have hUP : ∀ r : UserProgressRow, upKey u' m' r = true →
        upKey u m r = false := by
      intro r hr
      cases hk : upKey u m r with
      | false => rfl
      | true =>
        exfalso
        simp only [upKey, Bool.and_eq_true, beq_iff_eq] at hr hk
        exact hne ⟨hr.1.symm.trans hk.1, hr.2.symm.trans hk.2⟩
    have hLP : ∀ r : LessonProgressRow, lpPairKey u' m' r = true →
        lpPairKey u m r = false := by
      intro r hr
      cases hk : lpPairKey u m r with
      | false => rfl
      | true =>
        exfalso
        simp only [lpPairKey, Bool.and_eq_true, beq_iff_eq] at hr hk
        exact hne ⟨hr.1.symm.trans hk.1, hr.2.symm.trans hk.2⟩
    unfold getModuleProgress resetModuleProgress findUserProgress
      lessonProgressFor
    dsimp only
    rw [find?_filter_not_other _ _ _ hUP, filter_filter_not_other _ _ _ hLP]

theorem c7_reset_frame_witness :
    getModuleProgress (resetModuleProgress c4goodState 1 2).1 1 2 = (none, [])
    ∧ getModuleProgress (resetModuleProgress c4goodState 1 2).1 2 2 =
        getModuleProgress c4goodState 2 2
    ∧ verifyCertificate (resetModuleProgress c4goodState 1 2).1 "CERT-99-1-2" =
        verifyCertificate c4goodState "CERT-99-1-2" := by
  have h := c7_reset_frame c4goodState 1 2
  exact ⟨h.1, h.2.2.2.2.2 2 2 (by decide), h.2.2.2.2.1 "CERT-99-1-2"⟩

/-- One-lesson-one-quiz module whose quiz passing score is a parameter. -/
def c10Module (ps : Int) : ModuleRow :=
  ⟨3, "QuizMod", ⟨[⟨"lesson-1", "Only"⟩],
    [⟨"quiz-1", "Check", some "lesson-1", ps⟩], 45⟩⟩

/-- Fresh store with the parametrised quiz module. -/
def c10base (ps : Int) : DBState := ⟨[demoUser], [c10Module ps], [], [], []⟩

/-- Complete the lesson, then the quiz with score 10. -/
def c10calls : List UpdateCall :=
  [⟨5, 1, 3, "lesson-1", true, 60, none⟩,
   ⟨9, 1, 3, "quiz-1", true, 30, some 10⟩]

/-- C10: the aggregate counts a quiz as completed whenever its row has
`completed = true` and a non-null `quiz_score`, never consulting the quiz's
`passingScore`: for every passing score — in particular 70, far above the
stored score 10 — the same call sequence ends with the module `completed` and
`progress_percentage = 100`. -/
theorem c10_quiz_passing_score_ignored :
    ∀ ps : Int,
      moduleCompleted (runCalls (c10base ps) c10calls) 1 3 = true
      ∧ progressPercentageOf (runCalls (c10base ps) c10calls) 1 3 = some 100
      ∧ ((findLessonProgress (runCalls (c10base ps) c10calls) 1 3 "quiz-1").map
          (fun r => r.quiz_score)) = some (some 10) := by
  intro ps
  refine ⟨rfl, ?_, rfl⟩
  have h : progressPercentageOf (runCalls (c10base ps) c10calls) 1 3 =
      some (jsRound100 2 2) := rfl
  rw [h]
  rfl

end OurAfrica
